import Mathlib

/-!
# Configuration defaulting and validation (package `config`)

A shallow embedding of `config/config.go`: `SetDefaultConfig`, `ValidateConfig`,
`ValidateDaemon`, `ValidateLog`, `ValidateServer` and `TrimSpaceOfArg`, together with
models of the library functions they call (`strings`, `strconv`, `cast`, `viper`,
`multierror`, `govalidator`, `common`).

Go strings are modelled as Lean strings (sequences of Unicode code points).
-/

namespace Config

/-! ## Package `unicode` / `strings` -/

/-- Go `unicode.IsSpace`: the Latin-1 white space characters
`\t \n \v \f \r`, space, U+0085, U+00A0, and the other code points with the
Unicode White_Space property. -/
def unicode.IsSpace (r : Char) : Bool :=
  let n := r.toNat
  (9 ≤ n && n ≤ 13) || n == 0x20 || n == 0x85 || n == 0xA0 || n == 0x1680 ||
    (0x2000 ≤ n && n ≤ 0x200a) || n == 0x2028 || n == 0x2029 || n == 0x202f ||
    n == 0x205f || n == 0x3000

/-- Go `strings.TrimSpace` on the code points of a string: drop the leading white
space, then the trailing white space. -/
def strings.trimSpaceChars (l : List Char) : List Char :=
  (l.dropWhile unicode.IsSpace).rdropWhile unicode.IsSpace

/-- Go `strings.TrimSpace`. -/
def strings.TrimSpace (s : String) : String :=
  ⟨strings.trimSpaceChars s.data⟩

/-- Go `strings.SplitN(s, sep, n)` for a one-character separator and `n ≥ 0`, on code
points: at most `n` pieces, the last piece being the unsplit remainder; `n = 0` gives
no pieces. -/
def strings.splitNChars (sep : Char) : Nat → List Char → List (List Char)
  | 0, _ => []
  | 1, s => [s]
  | n + 2, s =>
    if sep ∈ s then
      s.takeWhile (fun c => c != sep) ::
        strings.splitNChars sep (n + 1) ((s.dropWhile (fun c => c != sep)).tail)
    else [s]

/-- Go `strings.SplitN(s, sep, n)` for a one-character separator. -/
def strings.SplitN (s : String) (sep : Char) (n : Nat) : List String :=
  (strings.splitNChars sep n s.data).map String.mk

/-! ## `TrimSpaceOfArg` -/

/-- The function `TrimSpaceOfArg` trims spaces of given argument (config.go, lines 204-218).
`fmt.Sprintf("%s=%s", argName, argValue)` is the concatenation
`argName ++ "=" ++ argValue`. -/
def TrimSpaceOfArg (arg : String) : String :=
  let args := strings.SplitN arg '=' 2
  match args with
  | [a0] => strings.TrimSpace a0
  | [a0, a1] =>
    let argName := strings.TrimSpace a0
    let argValue := strings.TrimSpace a1
    argName ++ "=" ++ argValue
  | _ => arg

/-! ## Package `strconv` -/

/-- The decimal digit character of `d < 10`. -/
def strconv.digitChar (d : Nat) : Char := Char.ofNat (48 + d)

/-- Go `strconv.formatBits` in base 10: the decimal digits of `n`, most significant
first, written in front of `acc`. The first argument bounds the number of digits. -/
def strconv.formatBits : Nat → Nat → List Char → List Char
  | 0, _, acc => acc
  | fuel + 1, n, acc =>
    if n / 10 = 0 then strconv.digitChar (n % 10) :: acc
    else strconv.formatBits fuel (n / 10) (strconv.digitChar (n % 10) :: acc)

/-- Go `strconv.Itoa`. -/
def strconv.Itoa (i : Int) : String :=
  if i < 0 then ⟨'-' :: strconv.formatBits (i.natAbs + 1) i.natAbs []⟩
  else ⟨strconv.formatBits (i.natAbs + 1) i.natAbs []⟩

/-- The digit loop of Go `strconv.Atoi`: every character must be a decimal digit. -/
def strconv.parseDigits : List Char → Nat → Option Nat
  | [], n => some n
  | ch :: cs, n =>
    if 48 ≤ ch.toNat ∧ ch.toNat ≤ 57 then strconv.parseDigits cs (n * 10 + (ch.toNat - 48))
    else none

/-- Largest value of the Go type `int` (64-bit platforms). -/
def strconv.maxInt : Int := 2 ^ 63 - 1

/-- Smallest value of the Go type `int` (64-bit platforms). -/
def strconv.minInt : Int := -(2 ^ 63)

/-- Go `strconv.Atoi`: an optional sign followed by at least one decimal digit;
`none` stands for a syntax error or a value out of the range of `int`. -/
def strconv.Atoi (s : String) : Option Int :=
  match s.data with
  | [] => none
  | c :: cs =>
    let neg := decide (c = '-')
    let ds := if c = '-' ∨ c = '+' then cs else c :: cs
    if ds = [] then none
    else
      match strconv.parseDigits ds 0 with
      | none => none
      | some n =>
        let v : Int := if neg then -(n : Int) else (n : Int)
        if strconv.minInt ≤ v ∧ v ≤ strconv.maxInt then some v else none

/-- Go `strconv.ParseBool`. -/
def strconv.ParseBool (str : String) : Option Bool :=
  if str ∈ ["1", "t", "T", "TRUE", "true", "True"] then some true
  else if str ∈ ["0", "f", "F", "FALSE", "false", "False"] then some false
  else none

/-- Go `strconv.FormatBool`. -/
def strconv.FormatBool (b : Bool) : String := if b then "true" else "false"

/-! ## Values, messages and errors -/

/-- A dynamically typed value held by the configuration store (Go `interface{}`).
`other` stands for a value of a type that none of the `cast` conversions accept
(a slice, a map, a struct). -/
inductive Value where
  | nil
  | bool (b : Bool)
  | int (n : Int)
  | str (s : String)
  | other (tag : Nat)
  deriving DecidableEq

/-- The message codes this file looks up in `Messages`. -/
inductive MsgCode where
  | ErrEmptyLogFileName
  | ErrNotValidLogFileName
  | ErrNotValidLogLevel
  | ErrNotValidLogFormat
  | ErrNotValidLogMaxSize
  | ErrNotValidLogMaxDays
  | ErrNotValidLogMaxBackups
  | ErrNotValidServerPort
  | ErrNotValidPidFile
  deriving DecidableEq

/-- A message of package `message`: its code and the values it was instantiated
with. -/
structure Message where
  code : MsgCode
  args : List Value
  deriving DecidableEq

/-- Modelled from the spec: the `Messages` table is declared in another file of the
package; it maps each code to a message template, which carries no values yet. -/
def Messages (code : MsgCode) : Message := ⟨code, []⟩

/-- The method `Renew` of a message: a copy of the template instantiated with the
given values. -/
def Message.Renew (m : Message) (ins : List Value) : Message := ⟨m.code, ins⟩

/-- The individual (non-aggregate) errors that occur in this file. -/
inductive Err where
  | cast (v : Value) (target : String)
  | numError (fn : String) (input : String)
  | os (msg : String)
  | message (m : Message)
  deriving DecidableEq

/-! ## Package `multierror` -/

/-- The aggregate `multierror.Error`: a list of errors. Every entry appended in this
file is an individual error, aggregates being flattened by `Append`. -/
structure multierror.Error where
  Errors : List Err
  deriving DecidableEq

/-- A non-nil value of the Go interface `error`: an individual error or an aggregate.
The nil `error` is `none` of `Option GoError`. -/
inductive GoError where
  | leaf (e : Err)
  | multi (m : multierror.Error)
  deriving DecidableEq

/-- Go `multierror.Append(err, e)` for a non-nil `e`: an aggregate is flattened into
the accumulator, any other error is added as one entry. -/
def multierror.Append (err : multierror.Error) (e : GoError) : multierror.Error :=
  match e with
  | .multi m => ⟨err.Errors ++ m.Errors⟩
  | .leaf x => ⟨err.Errors ++ [x]⟩

/-- Go `(*multierror.Error).ErrorOrNil`: nil when the aggregate has no entries. -/
def multierror.Error.ErrorOrNil (e : multierror.Error) : Option GoError :=
  if e.Errors.length = 0 then none else some (.multi e)

/-- The entries an `error` value stands for: none for nil, the error itself for an
individual error, the listed errors for an aggregate. -/
def entries : Option GoError → List Err
  | none => []
  | some (.leaf e) => [e]
  | some (.multi m) => m.Errors

/-! ## External functions and constants -/

/-- The functions of `path/filepath`, `govalidator` and `strconv` that are taken as
given: `IsAbs`, `Abs` (its error result, if any, being the text of an operating
system error), `Join`, the first result of `govalidator.IsFilePath`, and
`strconv.ParseInt(s, 0, 0)`. -/
structure Env where
  IsAbs : String → Bool
  Abs : String → String × Option String
  Join : List String → String
  IsFilePath : String → Bool
  ParseInt : String → Option Int

/-- The constants that `config.go` uses and that are declared elsewhere: in the
package itself (keys, defaults and bounds), in package `log` (the `DefaultLog...`
values) and in package `constant` (`MinPort`, `MaxPort`). -/
structure Constants where
  DaemonKey : String
  LogFileNameKey : String
  LogLevelKey : String
  LogFormatKey : String
  LogMaxSizeKey : String
  LogMaxDaysKey : String
  LogMaxBackupsKey : String
  ServerPortKey : String
  ServerPidFileKey : String
  DefaultDaemon : Value
  DefaultLogDir : String
  DefaultCommandName : String
  DefaultServerPort : Value
  MinLogMaxSize : Int
  MaxLogMaxSize : Int
  MinLogMaxDays : Int
  MaxLogMaxDays : Int
  MinLogMaxBackups : Int
  MaxLogMaxBackups : Int
  DefaultLogFileName : String
  DefaultLogLevel : Value
  DefaultLogFormat : Value
  DefaultLogMaxSize : Value
  DefaultLogMaxDays : Value
  DefaultLogMaxBackups : Value
  MinPort : Int
  MaxPort : Int

/-- The constant `constant.EmptyString`. -/
def constant.EmptyString : String := ""

/-! ## Package `cast` -/

/-- Go `cast.ToBoolE`. -/
def cast.ToBoolE (i : Value) : Bool × Option Err :=
  match i with
  | .bool b => (b, none)
  | .nil => (false, none)
  | .int n => (n != 0, none)
  | .str s =>
    match strconv.ParseBool s with
    | some b => (b, none)
    | none => (false, some (.numError "ParseBool" s))
  | .other _ => (false, some (.cast i "bool"))

/-- Go `cast.ToStringE`. -/
def cast.ToStringE (i : Value) : String × Option Err :=
  match i with
  | .str s => (s, none)
  | .bool b => (strconv.FormatBool b, none)
  | .int n => (strconv.Itoa n, none)
  | .nil => ("", none)
  | .other _ => ("", some (.cast i "string"))

/-- Go `cast.ToIntE`. -/
def cast.ToIntE (env : Env) (i : Value) : Int × Option Err :=
  match i with
  | .int n => (n, none)
  | .str s =>
    match env.ParseInt s with
    | some v => (v, none)
    | none => (0, some (.cast i "int"))
  | .bool b => (if b then 1 else 0, none)
  | .nil => (0, none)
  | .other _ => (0, some (.cast i "int"))

/-! ## Package `viper` -/

/-- The configuration store: a layer of explicitly set values above a layer of
defaults, each a map from (normalised) key to value. As in a Go map of
`interface{}`, a key that is absent reads as `nil`. -/
structure viper.Store where
  override : String → Value
  defaults : String → Value

/-- Go `viper.Get`: the explicitly set value if there is one, else the default, else
nil. -/
def viper.Get (st : viper.Store) (key : String) : Value :=
  if st.override key ≠ .nil then st.override key else st.defaults key

/-- Go `viper.SetDefault`. -/
def viper.SetDefault (st : viper.Store) (key : String) (value : Value) : viper.Store :=
  ⟨st.override, fun k => if k = key then value else st.defaults k⟩

/-- Go `viper.Set`. -/
def viper.Set (st : viper.Store) (key : String) (value : Value) : viper.Store :=
  ⟨fun k => if k = key then value else st.override k, st.defaults⟩

/-! ## Packages `govalidator` and `common` -/

/-- Go `govalidator.IsPort`. -/
def govalidator.IsPort (str : String) : Bool :=
  match strconv.Atoi str with
  | some i => decide (i > 0 ∧ i < 65536)
  | none => false

/-- Go `common.ElementInSlice` for a string and a slice of strings: whether the
element occurs in the slice; the error result is nil for arguments of these types. -/
def common.ElementInSlice (e : String) (s : List String) : Bool × Option Err :=
  (decide (e ∈ s), none)

/-! ## `config.go` -/

/-- The package variable `ValidLogLevels`. -/
def ValidLogLevels : List String := ["debug", "info", "warn", "warning", "error", "fatal"]

/-- The package variable `ValidLogFormat`. -/
def ValidLogFormat : List String := ["text", "json"]

/-- The function `SetDefaultConfig` set default configuration, it is the lowest priority
(lines 38-54). -/
def SetDefaultConfig (env : Env) (c : Constants) (baseDir : String)
    (st : viper.Store) : viper.Store :=
  -- daemon
  let st := viper.SetDefault st c.DaemonKey c.DefaultDaemon
  -- log
  let defaultLogFile := env.Join [baseDir, c.DefaultLogDir, c.DefaultLogFileName]
  let st := viper.SetDefault st c.LogFileNameKey (.str defaultLogFile)
  let st := viper.SetDefault st c.LogLevelKey c.DefaultLogLevel
  let st := viper.SetDefault st c.LogFormatKey c.DefaultLogFormat
  let st := viper.SetDefault st c.LogMaxSizeKey c.DefaultLogMaxSize
  let st := viper.SetDefault st c.LogMaxDaysKey c.DefaultLogMaxDays
  let st := viper.SetDefault st c.LogMaxBackupsKey c.DefaultLogMaxBackups
  -- server
  let st := viper.SetDefault st c.ServerPortKey c.DefaultServerPort
  let defaultPidFile := env.Join [baseDir, c.DefaultCommandName ++ ".pid"]
  let st := viper.SetDefault st c.ServerPidFileKey (.str defaultPidFile)
  st

/-- The function `ValidateDaemon` validates if daemon section is valid (lines 81-86). -/
def ValidateDaemon (c : Constants) (st : viper.Store) : Option GoError :=
  let err := (cast.ToBoolE (viper.Get st c.DaemonKey)).2
  err.map GoError.leaf

/-- The idiom `if err != nil { merr = multierror.Append(merr, err) }` for the error
result of a library call. -/
def appendIfErr (merr : multierror.Error) (err : Option Err) : multierror.Error :=
  match err with
  | some e => multierror.Append merr (.leaf e)
  | none => merr

/-- The section `// validate log.FileName` of `ValidateLog` (lines 94-113). -/
def ValidateLog.fileName (env : Env) (c : Constants) (st : viper.Store)
    (merr : multierror.Error) : multierror.Error :=
  let r := cast.ToStringE (viper.Get st c.LogFileNameKey)
  let logFileName := r.1
  let merr := appendIfErr merr r.2
  let logFileName := strings.TrimSpace logFileName
  let merr :=
    if logFileName = constant.EmptyString then
      multierror.Append merr (.leaf (.message (Messages .ErrEmptyLogFileName)))
    else merr
  let isAbs := env.IsAbs logFileName
  let p :=
    if !isAbs then
      let a := env.Abs logFileName
      (a.1, appendIfErr merr (a.2.map Err.os))
    else (logFileName, merr)
  let logFileName := p.1
  let merr := p.2
  let valid := env.IsFilePath logFileName
  if !valid then
    multierror.Append merr
      (.leaf (.message ((Messages .ErrNotValidLogFileName).Renew [.str logFileName])))
  else merr

/-- The section `// validate log.level` of `ValidateLog` (lines 115-126). -/
def ValidateLog.level (c : Constants) (st : viper.Store)
    (merr : multierror.Error) : multierror.Error :=
  let r := cast.ToStringE (viper.Get st c.LogLevelKey)
  let logLevel := r.1
  let merr := appendIfErr merr r.2
  let e := common.ElementInSlice logLevel ValidLogLevels
  let valid := e.1
  let merr := appendIfErr merr e.2
  if !valid then
    multierror.Append merr
      (.leaf (.message ((Messages .ErrNotValidLogLevel).Renew [.str logLevel])))
  else merr

/-- The section `// validate log.format` of `ValidateLog` (lines 128-139). -/
def ValidateLog.format (c : Constants) (st : viper.Store)
    (merr : multierror.Error) : multierror.Error :=
  let r := cast.ToStringE (viper.Get st c.LogFormatKey)
  let logFormat := r.1
  let merr := appendIfErr merr r.2
  let e := common.ElementInSlice logFormat ValidLogFormat
  let valid := e.1
  let merr := appendIfErr merr e.2
  if !valid then
    multierror.Append merr
      (.leaf (.message ((Messages .ErrNotValidLogFormat).Renew [.str logFormat])))
  else merr

/-- The section `// validate log.maxSize` of `ValidateLog` (lines 141-148). -/
def ValidateLog.maxSize (env : Env) (c : Constants) (st : viper.Store)
    (merr : multierror.Error) : multierror.Error :=
  let r := cast.ToIntE env (viper.Get st c.LogMaxSizeKey)
  let logMaxSize := r.1
  let merr := appendIfErr merr r.2
  if logMaxSize < c.MinLogMaxSize ∨ logMaxSize > c.MaxLogMaxSize then
    multierror.Append merr
      (.leaf (.message ((Messages .ErrNotValidLogMaxSize).Renew
        [.int c.MinLogMaxSize, .int c.MaxLogMaxSize, .int logMaxSize])))
  else merr

/-- The section `// validate log.maxDays` of `ValidateLog` (lines 150-157). -/
def ValidateLog.maxDays (env : Env) (c : Constants) (st : viper.Store)
    (merr : multierror.Error) : multierror.Error :=
  let r := cast.ToIntE env (viper.Get st c.LogMaxDaysKey)
  let logMaxDays := r.1
  let merr := appendIfErr merr r.2
  if logMaxDays < c.MinLogMaxDays ∨ logMaxDays > c.MaxLogMaxDays then
    multierror.Append merr
      (.leaf (.message ((Messages .ErrNotValidLogMaxDays).Renew
        [.int c.MinLogMaxDays, .int c.MaxLogMaxDays, .int logMaxDays])))
  else merr

/-- The section `// validate log.maxBackups` of `ValidateLog` (lines 159-166): the
value is compared with `MinLogMaxDays` and `MaxLogMaxDays`, the message is
instantiated with `MinLogMaxBackups` and `MaxLogMaxBackups`. -/
def ValidateLog.maxBackups (env : Env) (c : Constants) (st : viper.Store)
    (merr : multierror.Error) : multierror.Error :=
  let r := cast.ToIntE env (viper.Get st c.LogMaxBackupsKey)
  let logMaxBackups := r.1
  let merr := appendIfErr merr r.2
  if logMaxBackups < c.MinLogMaxDays ∨ logMaxBackups > c.MaxLogMaxDays then
    multierror.Append merr
      (.leaf (.message ((Messages .ErrNotValidLogMaxBackups).Renew
        [.int c.MinLogMaxBackups, .int c.MaxLogMaxBackups, .int logMaxBackups])))
  else merr

/-- The aggregate `merr` that `ValidateLog` has built when it returns: the six
sections of the function in order, starting from the empty aggregate. -/
def ValidateLog.merr (env : Env) (c : Constants) (st : viper.Store) : multierror.Error :=
  let merr : multierror.Error := ⟨[]⟩
  let merr := ValidateLog.fileName env c st merr
  let merr := ValidateLog.level c st merr
  let merr := ValidateLog.format c st merr
  let merr := ValidateLog.maxSize env c st merr
  let merr := ValidateLog.maxDays env c st merr
  let merr := ValidateLog.maxBackups env c st merr
  merr

/-- The function `ValidateLog` validates if log section is valid (lines 88-169). -/
def ValidateLog (env : Env) (c : Constants) (st : viper.Store) : Option GoError :=
  (ValidateLog.merr env c st).ErrorOrNil

/-- The section `// validate server.port` of `ValidateServer` (lines 175-182). -/
def ValidateServer.port (env : Env) (c : Constants) (st : viper.Store)
    (merr : multierror.Error) : multierror.Error :=
  let r := cast.ToIntE env (viper.Get st c.ServerPortKey)
  let serverPort := r.1
  let merr := appendIfErr merr r.2
  if !govalidator.IsPort (strconv.Itoa serverPort) then
    multierror.Append merr
      (.leaf (.message ((Messages .ErrNotValidServerPort).Renew
        [.int c.MinPort, .int c.MaxPort, .int serverPort])))
  else merr

/-- The section `// validate server.pidFile` of `ValidateServer` (lines 184-199). -/
def ValidateServer.pidFile (env : Env) (c : Constants) (st : viper.Store)
    (merr : multierror.Error) : multierror.Error :=
  let r := cast.ToStringE (viper.Get st c.ServerPidFileKey)
  let serverPidFile := r.1
  let merr := appendIfErr merr r.2
  let isAbs := env.IsAbs serverPidFile
  let p :=
    if !isAbs then
      let a := env.Abs serverPidFile
      (a.1, appendIfErr merr (a.2.map Err.os))
    else (serverPidFile, merr)
  let serverPidFile := p.1
  let merr := p.2
  let ok := env.IsFilePath serverPidFile
  if !ok then
    multierror.Append merr
      (.leaf (.message ((Messages .ErrNotValidPidFile).Renew [.str serverPidFile])))
  else merr

/-- The aggregate `merr` that `ValidateServer` has built when it returns. -/
def ValidateServer.merr (env : Env) (c : Constants) (st : viper.Store) : multierror.Error :=
  let merr : multierror.Error := ⟨[]⟩
  let merr := ValidateServer.port env c st merr
  let merr := ValidateServer.pidFile env c st merr
  merr

/-- The function `ValidateServer` validates if server section is valid
(lines 171-202). -/
def ValidateServer (env : Env) (c : Constants) (st : viper.Store) : Option GoError :=
  (ValidateServer.merr env c st).ErrorOrNil

/-- The function `ValidateConfig` validates if the configuration is valid
(lines 56-79). -/
def ValidateConfig (env : Env) (c : Constants) (st : viper.Store) : Option GoError :=
  let merr : multierror.Error := ⟨[]⟩
  -- validate daemon section
  let err := ValidateDaemon c st
  let merr :=
    match err with
    | some e => multierror.Append merr e
    | none => merr
  -- validate log section
  let err := ValidateLog env c st
  let merr :=
    match err with
    | some e => multierror.Append merr e
    | none => merr
  -- validate server section
  let err := ValidateServer env c st
  let merr :=
    match err with
    | some e => multierror.Append merr e
    | none => merr
  merr.ErrorOrNil

/-! ## A sample environment -/

/-- A Unix-like sample of the external functions, with working directory `/srv/app`:
a path is absolute when it starts with `/`, and a file path is accepted when it starts
with `/` and holds no NUL character. -/
def unixEnv : Env where
  IsAbs p := p.data.head? == some '/'
  Abs p :=
    if p.data.head? == some '/' then (p, none)
    else if p = "" then ("/srv/app", none)
    else ("/srv/app/" ++ p, none)
  Join elems := "/".intercalate (elems.filter (fun e => e != ""))
  IsFilePath p := p.data.head? == some '/' && !p.data.contains (Char.ofNat 0)
  ParseInt s := strconv.Atoi s

/-- Sample values of the constants declared outside `config.go`. -/
def sampleConstants : Constants where
  DaemonKey := "daemon.enable"
  LogFileNameKey := "log.fileName"
  LogLevelKey := "log.level"
  LogFormatKey := "log.format"
  LogMaxSizeKey := "log.maxSize"
  LogMaxDaysKey := "log.maxDays"
  LogMaxBackupsKey := "log.maxBackups"
  ServerPortKey := "server.port"
  ServerPidFileKey := "server.pidFile"
  DefaultDaemon := .bool false
  DefaultLogDir := "log"
  DefaultCommandName := "go-template"
  DefaultServerPort := .int 8080
  MinLogMaxSize := 1
  MaxLogMaxSize := 1024
  MinLogMaxDays := 1
  MaxLogMaxDays := 7
  MinLogMaxBackups := 1
  MaxLogMaxBackups := 100
  DefaultLogFileName := "run.log"
  DefaultLogLevel := .str "info"
  DefaultLogFormat := .str "text"
  DefaultLogMaxSize := .int 100
  DefaultLogMaxDays := .int 7
  DefaultLogMaxBackups := .int 5
  MinPort := 1
  MaxPort := 65535

/-- The store with no explicitly set value and no default. -/
def emptyStore : viper.Store := ⟨fun _ => .nil, fun _ => .nil⟩

/-- The sample defaults installed under `/srv/app`. -/
def defaultStore : viper.Store :=
  SetDefaultConfig unixEnv sampleConstants "/srv/app" emptyStore

/-- A sample store with one violation in each section: `daemon.enable` is not a
boolean, `log.level` is not a valid level, `server.port` is not a valid port. -/
def threeViolationsStore : viper.Store :=
  viper.Set (viper.Set (viper.Set defaultStore "daemon.enable" (.str "maybe"))
    "log.level" (.str "verbose")) "server.port" (.int 70000)

/-- A sample store whose `log.maxBackups` is 50, the other values being the
defaults. -/
def backupsStore : viper.Store := viper.Set defaultStore "log.maxBackups" (.int 50)

/-- A sample store whose `server.pidFile` is the empty string, the other values
being the defaults. -/
def emptyPidFileStore : viper.Store := viper.Set defaultStore "server.pidFile" (.str "")

/-- A sample store whose `server.port` is 70000, the other values being the
defaults. -/
def badPortStore : viper.Store := viper.Set defaultStore "server.port" (.int 70000)

/-- A sample store whose `log.level` is a value that cannot be coerced to a string,
the other values being the defaults. -/
def uncoercibleLevelStore : viper.Store := viper.Set defaultStore "log.level" (.other 0)

/-! ## Lemmas on strings -/

theorem splitNChars_two_of_not_mem (sep : Char) (s : List Char) (h : sep ∉ s) :
    strings.splitNChars sep 2 s = [s] := by
  simp [strings.splitNChars, h]

theorem splitNChars_two_of_mem (sep : Char) (a b : List Char) (h : sep ∉ a) :
    strings.splitNChars sep 2 (a ++ sep :: b) = [a, b] := by
  have hp : ∀ c ∈ a, (c != sep) = true := by
    intro c hc
    simp only [bne_iff_ne, ne_eq]
    rintro rfl
    exact h hc
  simp [strings.splitNChars, List.takeWhile_append_of_pos hp, List.dropWhile_append_of_pos hp]

theorem trimSpaceChars_sublist (l : List Char) : (strings.trimSpaceChars l).Sublist l :=
  ( List.rdropWhile_prefix unicode.IsSpace _).sublist.trans (List.dropWhile_sublist _)

theorem trimSpaceChars_dropWhile (l : List Char) :
    (strings.trimSpaceChars l).dropWhile unicode.IsSpace = strings.trimSpaceChars l := by
  rw [List.dropWhile_eq_self_iff]
  intro hl
  have hne : strings.trimSpaceChars l ≠ [] := List.length_pos.mp hl
  have hpre : strings.trimSpaceChars l <+: l.dropWhile unicode.IsSpace :=
     List.rdropWhile_prefix unicode.IsSpace _
  have hd : l.dropWhile unicode.IsSpace ≠ [] := by
    intro h0
    rw [h0] at hpre
    exact hne ( List.prefix_nil.mp hpre)
  have h1 := List.head_dropWhile_not unicode.IsSpace l hd
  have h2 := hpre.head hne
  rw [List.get_eq_getElem, ← List.head_eq_getElem _ hne, h2, h1]
  simp

theorem trimSpaceChars_idem (l : List Char) :
    strings.trimSpaceChars (strings.trimSpaceChars l) = strings.trimSpaceChars l := by
  have h := trimSpaceChars_dropWhile l
  have h2 : (strings.trimSpaceChars l).rdropWhile unicode.IsSpace = strings.trimSpaceChars l :=
    List.rdropWhile_idempotent _ _
  show ((strings.trimSpaceChars l).dropWhile unicode.IsSpace).rdropWhile unicode.IsSpace = _
  rw [h, h2]


theorem TrimSpace_idem (s : String) :
    strings.TrimSpace (strings.TrimSpace s) = strings.TrimSpace s := by
  simp [strings.TrimSpace, trimSpaceChars_idem]

theorem TrimSpace_not_mem (c : Char) (s : String) (h : c ∉ s.data) :
    c ∉ (strings.TrimSpace s).data :=
  fun hc => h ((trimSpaceChars_sublist s.data).subset hc)

theorem TrimSpaceOfArg_of_not_mem (arg : String) (h : '=' ∉ arg.data) :
    TrimSpaceOfArg arg = strings.TrimSpace arg := by
  simp [TrimSpaceOfArg, strings.SplitN, splitNChars_two_of_not_mem _ _ h]

theorem TrimSpaceOfArg_of_mem (name value : String) (h : '=' ∉ name.data) :
    TrimSpaceOfArg (name ++ "=" ++ value) =
      strings.TrimSpace name ++ "=" ++ strings.TrimSpace value := by
  have hd : (name ++ "=" ++ value).data = name.data ++ '=' :: value.data := by
    simp [String.data_append]
  simp [TrimSpaceOfArg, strings.SplitN, hd, splitNChars_two_of_mem _ _ _ h]

/-- C3: `TrimSpaceOfArg` trims a bare argument, and trims both sides of the first
`=` of a `name=value` argument (the value may contain further `=`). -/
theorem TrimSpaceOfArg_spec :
    (∀ arg : String, '=' ∉ arg.data → TrimSpaceOfArg arg = strings.TrimSpace arg) ∧
    (∀ name value : String, '=' ∉ name.data →
      TrimSpaceOfArg (name ++ "=" ++ value) =
        strings.TrimSpace name ++ "=" ++ strings.TrimSpace value) ∧
    TrimSpaceOfArg " key = value " = "key=value" ∧
    TrimSpaceOfArg "  bare  " = "bare" :=
  ⟨TrimSpaceOfArg_of_not_mem, TrimSpaceOfArg_of_mem, by decide, by decide⟩

/-- C10: `TrimSpaceOfArg` is idempotent. -/
theorem TrimSpaceOfArg_idempotent (arg : String) :
    TrimSpaceOfArg (TrimSpaceOfArg arg) = TrimSpaceOfArg arg := by
  by_cases h : '=' ∈ arg.data
  · obtain ⟨a, b, hab, ha⟩ := List.eq_append_cons_of_mem h
    have harg : arg = (String.mk a) ++ "=" ++ (String.mk b) := by
      apply String.ext
      simp [String.data_append, hab]
    have ha2 : '=' ∉ (String.mk a).data := ha
    rw [harg, TrimSpaceOfArg_of_mem _ _ ha2,
      TrimSpaceOfArg_of_mem _ _ (TrimSpace_not_mem _ _ ha2), TrimSpace_idem, TrimSpace_idem]
  · rw [TrimSpaceOfArg_of_not_mem _ h,
      TrimSpaceOfArg_of_not_mem _ (TrimSpace_not_mem _ _ h), TrimSpace_idem]

/-! ## Lemmas on aggregates, conversions and the validators -/

theorem Append_leaf_Errors (m : multierror.Error) (x : Err) :
    (multierror.Append m (.leaf x)).Errors = m.Errors ++ [x] := rfl

theorem appendIfErr_Errors (m : multierror.Error) (e : Option Err) :
    (appendIfErr m e).Errors = m.Errors ++ e.toList := by
  cases e <;> simp [appendIfErr, multierror.Append]

theorem entries_ErrorOrNil (m : multierror.Error) : entries m.ErrorOrNil = m.Errors := by
  unfold multierror.Error.ErrorOrNil
  split
  · rename_i h
    simp [entries, List.length_eq_zero.mp h]
  · rfl

theorem ErrorOrNil_eq_none_iff (m : multierror.Error) :
    m.ErrorOrNil = none ↔ m.Errors = [] := by
  unfold multierror.Error.ErrorOrNil
  split
  · rename_i h
    simp [List.length_eq_zero.mp h]
  · rename_i h
    simp only [List.length_eq_zero] at h
    simp [h]

theorem fileName_Errors (env : Env) (c : Constants) (st : viper.Store)
    (merr : multierror.Error) :
    (ValidateLog.fileName env c st merr).Errors =
      merr.Errors ++ (ValidateLog.fileName env c st ⟨[]⟩).Errors := by
  simp only [ValidateLog.fileName]
  split_ifs <;> simp [appendIfErr_Errors, Append_leaf_Errors]

theorem level_Errors (c : Constants) (st : viper.Store) (merr : multierror.Error) :
    (ValidateLog.level c st merr).Errors =
      merr.Errors ++ (ValidateLog.level c st ⟨[]⟩).Errors := by
  simp only [ValidateLog.level]
  split_ifs <;> simp [appendIfErr_Errors, Append_leaf_Errors]

theorem format_Errors (c : Constants) (st : viper.Store) (merr : multierror.Error) :
    (ValidateLog.format c st merr).Errors =
      merr.Errors ++ (ValidateLog.format c st ⟨[]⟩).Errors := by
  simp only [ValidateLog.format]
  split_ifs <;> simp [appendIfErr_Errors, Append_leaf_Errors]

theorem maxSize_Errors (env : Env) (c : Constants) (st : viper.Store)
    (merr : multierror.Error) :
    (ValidateLog.maxSize env c st merr).Errors =
      merr.Errors ++ (ValidateLog.maxSize env c st ⟨[]⟩).Errors := by
  simp only [ValidateLog.maxSize]
  split_ifs <;> simp [appendIfErr_Errors, Append_leaf_Errors]

theorem maxDays_Errors (env : Env) (c : Constants) (st : viper.Store)
    (merr : multierror.Error) :
    (ValidateLog.maxDays env c st merr).Errors =
      merr.Errors ++ (ValidateLog.maxDays env c st ⟨[]⟩).Errors := by
  simp only [ValidateLog.maxDays]
  split_ifs <;> simp [appendIfErr_Errors, Append_leaf_Errors]

theorem maxBackups_Errors (env : Env) (c : Constants) (st : viper.Store)
    (merr : multierror.Error) :
    (ValidateLog.maxBackups env c st merr).Errors =
      merr.Errors ++ (ValidateLog.maxBackups env c st ⟨[]⟩).Errors := by
  simp only [ValidateLog.maxBackups]
  split_ifs <;> simp [appendIfErr_Errors, Append_leaf_Errors]

theorem port_Errors (env : Env) (c : Constants) (st : viper.Store)
    (merr : multierror.Error) :
    (ValidateServer.port env c st merr).Errors =
      merr.Errors ++ (ValidateServer.port env c st ⟨[]⟩).Errors := by
  simp only [ValidateServer.port]
  split_ifs <;> simp [appendIfErr_Errors, Append_leaf_Errors]

theorem pidFile_Errors (env : Env) (c : Constants) (st : viper.Store)
    (merr : multierror.Error) :
    (ValidateServer.pidFile env c st merr).Errors =
      merr.Errors ++ (ValidateServer.pidFile env c st ⟨[]⟩).Errors := by
  simp only [ValidateServer.pidFile]
  split_ifs <;> simp [appendIfErr_Errors, Append_leaf_Errors]

theorem ValidateLog_merr_Errors (env : Env) (c : Constants) (st : viper.Store) :
    (ValidateLog.merr env c st).Errors =
      (ValidateLog.fileName env c st ⟨[]⟩).Errors ++
      ((ValidateLog.level c st ⟨[]⟩).Errors ++
      ((ValidateLog.format c st ⟨[]⟩).Errors ++
      ((ValidateLog.maxSize env c st ⟨[]⟩).Errors ++
      ((ValidateLog.maxDays env c st ⟨[]⟩).Errors ++
      (ValidateLog.maxBackups env c st ⟨[]⟩).Errors)))) := by
  simp only [ValidateLog.merr]
  rw [maxBackups_Errors, maxDays_Errors, maxSize_Errors, format_Errors, level_Errors]
  simp only [List.append_assoc]

theorem ValidateServer_merr_Errors (env : Env) (c : Constants) (st : viper.Store) :
    (ValidateServer.merr env c st).Errors =
      (ValidateServer.port env c st ⟨[]⟩).Errors ++
      (ValidateServer.pidFile env c st ⟨[]⟩).Errors := by
  simp only [ValidateServer.merr]
  rw [pidFile_Errors]

theorem digitChar_toNat : ∀ d, d < 10 → (strconv.digitChar d).toNat = 48 + d := by
  decide

theorem parseDigits_digitChar (d : Nat) (hd : d < 10) (cs : List Char) (n : Nat) :
    strconv.parseDigits (strconv.digitChar d :: cs) n = strconv.parseDigits cs (n * 10 + d) := by
  have h := digitChar_toNat d hd
  simp only [strconv.parseDigits, h]
  rw [if_pos (by omega)]
  congr 1
  omega

theorem parseDigits_formatBits (fuel : Nat) :
    ∀ (n : Nat) (acc : List Char), n < fuel →
      strconv.parseDigits (strconv.formatBits fuel n acc) 0 = strconv.parseDigits acc n := by
  induction fuel with
  | zero => intro n acc h; omega
  | succ fuel ih =>
    intro n acc h
    have hmod : n % 10 < 10 := Nat.mod_lt _ (by decide)
    unfold strconv.formatBits
    split
    · rename_i h0
      rw [parseDigits_digitChar _ hmod]
      congr 1
      omega
    · rename_i h0
      rw [ih (n / 10) _ (by omega), parseDigits_digitChar _ hmod]
      congr 1
      omega

theorem formatBits_head (fuel n : Nat) (acc : List Char) :
    ∃ d rest, d < 10 ∧ strconv.formatBits (fuel + 1) n acc = strconv.digitChar d :: rest := by
  induction fuel generalizing n acc with
  | zero =>
    unfold strconv.formatBits
    split
    · exact ⟨n % 10, acc, Nat.mod_lt _ (by decide), rfl⟩
    · exact ⟨n % 10, acc, Nat.mod_lt _ (by decide), rfl⟩
  | succ fuel ih =>
    unfold strconv.formatBits
    split
    · exact ⟨n % 10, acc, Nat.mod_lt _ (by decide), rfl⟩
    · exact ih _ _

theorem Atoi_Itoa (i : Int) :
    strconv.Atoi (strconv.Itoa i) =
      if strconv.minInt ≤ i ∧ i ≤ strconv.maxInt then some i else none := by
  have hp := parseDigits_formatBits (i.natAbs + 1) i.natAbs [] (Nat.lt_succ_self _)
  obtain ⟨d, rest, hd, hrest⟩ := formatBits_head i.natAbs i.natAbs []
  have hdn := digitChar_toNat d hd
  by_cases hneg : i < 0
  · have hi : -(i.natAbs : Int) = i := by omega
    simp only [strconv.Itoa, if_pos hneg, strconv.Atoi, true_or, if_true, decide_True]
    rw [if_neg (by rw [hrest]; simp), hp]
    simp only [strconv.parseDigits, if_true, hi]
  · have hi : (i.natAbs : Int) = i := by omega
    have h1 : strconv.digitChar d ≠ '-' := by
      intro h
      have h45 : ('-' : Char).toNat = 45 := by decide
      rw [h, h45] at hdn
      omega
    have h2 : strconv.digitChar d ≠ '+' := by
      intro h
      have h43 : ('+' : Char).toNat = 43 := by decide
      rw [h, h43] at hdn
      omega
    simp only [strconv.Itoa, if_neg hneg, strconv.Atoi]
    rw [hrest]
    simp only [h1, h2, or_self, if_false, decide_False]
    rw [if_neg (by simp), ← hrest, hp]
    simp only [strconv.parseDigits, hi]
    simp

theorem IsPort_Itoa (p : Int) :
    govalidator.IsPort (strconv.Itoa p) = decide (1 ≤ p ∧ p ≤ 65535) := by
  unfold govalidator.IsPort
  rw [Atoi_Itoa]
  by_cases h : strconv.minInt ≤ p ∧ p ≤ strconv.maxInt
  · rw [if_pos h]
    simp only [decide_eq_decide]
    omega
  · rw [if_neg h]
    simp only [strconv.minInt, strconv.maxInt] at h
    symm
    simp only [decide_eq_false_iff_not]
    omega

theorem matchAppend_Errors (m : multierror.Error) (err : Option GoError) :
    (match err with
      | some e => multierror.Append m e
      | none => m).Errors = m.Errors ++ entries err := by
  rcases err with _ | (_ | _) <;> simp [multierror.Append, entries]

theorem ValidateConfig_entries (env : Env) (c : Constants) (st : viper.Store) :
    entries (ValidateConfig env c st) =
      entries (ValidateDaemon c st) ++
        (entries (ValidateLog env c st) ++ entries (ValidateServer env c st)) := by
  simp only [ValidateConfig, entries_ErrorOrNil, matchAppend_Errors]
  simp

theorem ValidateDaemon_none_iff (c : Constants) (st : viper.Store) :
    ValidateDaemon c st = none ↔ entries (ValidateDaemon c st) = [] := by
  unfold ValidateDaemon
  cases (cast.ToBoolE (viper.Get st c.DaemonKey)).2 <;> simp [entries]

theorem ErrorOrNil_none_iff_entries (m : multierror.Error) :
    m.ErrorOrNil = none ↔ entries m.ErrorOrNil = [] := by
  rw [entries_ErrorOrNil, ErrorOrNil_eq_none_iff]

theorem ErrorOrNil_of_ne_nil (m : multierror.Error) (h : m.Errors ≠ []) :
    m.ErrorOrNil = some (.multi m) := by
  unfold multierror.Error.ErrorOrNil
  rw [if_neg]
  simpa using h

/-- C1: `ValidateConfig` returns no error exactly when the three section validators
all return no error, and otherwise returns a non-nil aggregate. -/
theorem ValidateConfig_none_iff (env : Env) (c : Constants) (st : viper.Store) :
    (ValidateConfig env c st = none ↔
      ValidateDaemon c st = none ∧ ValidateLog env c st = none ∧
        ValidateServer env c st = none) ∧
    ((ValidateDaemon c st ≠ none ∨ ValidateLog env c st ≠ none ∨
        ValidateServer env c st ≠ none) →
      ∃ m : multierror.Error, ValidateConfig env c st = some (.multi m) ∧ m.Errors ≠ []) := by
  have hE := ValidateConfig_entries env c st
  have hC : ∃ m : multierror.Error, ValidateConfig env c st = m.ErrorOrNil ∧
      m.Errors = entries (ValidateConfig env c st) := by
    refine ⟨_, rfl, ?_⟩
    rw [← entries_ErrorOrNil]
    rfl
  obtain ⟨m, hm, hmE⟩ := hC
  have hiff : ValidateConfig env c st = none ↔
      ValidateDaemon c st = none ∧ ValidateLog env c st = none ∧
        ValidateServer env c st = none := by
    rw [ValidateDaemon_none_iff, ValidateLog, ValidateServer,
      ErrorOrNil_none_iff_entries (ValidateLog.merr env c st),
      ErrorOrNil_none_iff_entries (ValidateServer.merr env c st), hm,
      ErrorOrNil_eq_none_iff, hmE, hE]
    simp [ValidateLog, ValidateServer]
  refine ⟨hiff, fun h => ⟨m, ?_, ?_⟩⟩
  · rw [hm]
    apply ErrorOrNil_of_ne_nil
    intro h0
    have := (ErrorOrNil_eq_none_iff m).mpr h0
    rw [← hm, hiff] at this
    tauto
  · intro h0
    have := (ErrorOrNil_eq_none_iff m).mpr h0
    rw [← hm, hiff] at this
    tauto

/-- Witness of C1 on two sample stores: the defaults validate, and the store with a
violation in every section gives a non-nil aggregate. -/
theorem ValidateConfig_none_iff_witness :
    ValidateConfig unixEnv sampleConstants defaultStore = none ∧
    ∃ m : multierror.Error,
      ValidateConfig unixEnv sampleConstants threeViolationsStore = some (.multi m) ∧
        m.Errors ≠ [] :=
  ⟨(ValidateConfig_none_iff unixEnv sampleConstants defaultStore).1.mpr
      ⟨by decide, by decide, by decide⟩,
    (ValidateConfig_none_iff unixEnv sampleConstants threeViolationsStore).2
      (Or.inl (by decide))⟩

/-- C2: the aggregate of `ValidateConfig` lists the violations of the daemon, log and
server validators, flattened and in that order; its length is the sum of their
numbers of entries, and is three when each section contributes exactly one. -/
theorem ValidateConfig_lists_all (env : Env) (c : Constants) (st : viper.Store) :
    entries (ValidateConfig env c st) =
      entries (ValidateDaemon c st) ++ entries (ValidateLog env c st) ++
        entries (ValidateServer env c st) ∧
    (entries (ValidateConfig env c st)).length =
      (if (ValidateDaemon c st).isSome then 1 else 0) +
        (entries (ValidateLog env c st)).length +
        (entries (ValidateServer env c st)).length ∧
    ((entries (ValidateDaemon c st)).length = 1 →
      (entries (ValidateLog env c st)).length = 1 →
      (entries (ValidateServer env c st)).length = 1 →
      (entries (ValidateConfig env c st)).length = 3) := by
  have hE := ValidateConfig_entries env c st
  have hD : (entries (ValidateDaemon c st)).length =
      if (ValidateDaemon c st).isSome then 1 else 0 := by
    unfold ValidateDaemon
    cases (cast.ToBoolE (viper.Get st c.DaemonKey)).2 <;> simp [entries]
  refine ⟨by rw [hE, List.append_assoc], ?_, ?_⟩
  · rw [hE, ← hD]
    simp only [List.length_append]
    omega
  · intro h1 h2 h3
    rw [hE]
    simp only [List.length_append]
    omega

/-- Witness of C2: on the sample store with one violation in each section the
aggregate has three entries. -/
theorem ValidateConfig_lists_all_witness :
    (entries (ValidateDaemon sampleConstants threeViolationsStore)).length = 1 ∧
    (entries (ValidateLog unixEnv sampleConstants threeViolationsStore)).length = 1 ∧
    (entries (ValidateServer unixEnv sampleConstants threeViolationsStore)).length = 1 ∧
    (entries (ValidateConfig unixEnv sampleConstants threeViolationsStore)).length = 3 :=
  ⟨by decide, by decide, by decide,
    (ValidateConfig_lists_all unixEnv sampleConstants threeViolationsStore).2.2
      (by decide) (by decide) (by decide)⟩

theorem ToStringE_not_message (v : Value) (m : Message) :
    Err.message m ∉ (cast.ToStringE v).2.toList := by
  cases v <;> simp [cast.ToStringE]

theorem ToIntE_not_message (env : Env) (v : Value) (m : Message) :
    Err.message m ∉ (cast.ToIntE env v).2.toList := by
  cases v <;> simp [cast.ToIntE]
  split <;> simp

theorem os_not_message (o : Option String) (m : Message) :
    Err.message m ∉ (o.map Err.os).toList := by
  cases o <;> simp

theorem fileName_code (env : Env) (c : Constants) (st : viper.Store) (m : Message)
    (h : Err.message m ∈ (ValidateLog.fileName env c st ⟨[]⟩).Errors) :
    m.code = .ErrEmptyLogFileName ∨ m.code = .ErrNotValidLogFileName := by
  simp only [ValidateLog.fileName] at h
  have h1 := ToStringE_not_message (viper.Get st c.LogFileNameKey) m
  split_ifs at h <;>
    simp [appendIfErr_Errors, Append_leaf_Errors, h1, os_not_message, Messages,
      Message.Renew] at h <;>
    first
      | (rcases h with h | h <;> simp [h])
      | simp [h]

theorem level_mem_iff (c : Constants) (st : viper.Store) (m : Message) :
    Err.message m ∈ (ValidateLog.level c st ⟨[]⟩).Errors ↔
      m = (Messages .ErrNotValidLogLevel).Renew
          [.str (cast.ToStringE (viper.Get st c.LogLevelKey)).1] ∧
        (cast.ToStringE (viper.Get st c.LogLevelKey)).1 ∉ ValidLogLevels := by
  simp only [ValidateLog.level, common.ElementInSlice]
  have h1 := ToStringE_not_message (viper.Get st c.LogLevelKey) m
  split_ifs with h <;>
    simp [appendIfErr_Errors, Append_leaf_Errors, h1] <;> simp_all

theorem format_code (c : Constants) (st : viper.Store) (m : Message)
    (h : Err.message m ∈ (ValidateLog.format c st ⟨[]⟩).Errors) :
    m.code = .ErrNotValidLogFormat := by
  simp only [ValidateLog.format, common.ElementInSlice] at h
  have h1 := ToStringE_not_message (viper.Get st c.LogFormatKey) m
  split_ifs at h <;>
    simp [appendIfErr_Errors, Append_leaf_Errors, h1, Messages, Message.Renew] at h
  simp [h]

theorem maxSize_code (env : Env) (c : Constants) (st : viper.Store) (m : Message)
    (h : Err.message m ∈ (ValidateLog.maxSize env c st ⟨[]⟩).Errors) :
    m.code = .ErrNotValidLogMaxSize := by
  simp only [ValidateLog.maxSize] at h
  have h1 := ToIntE_not_message env (viper.Get st c.LogMaxSizeKey) m
  split_ifs at h <;>
    simp [appendIfErr_Errors, Append_leaf_Errors, h1, Messages, Message.Renew] at h
  simp [h]

theorem maxDays_code (env : Env) (c : Constants) (st : viper.Store) (m : Message)
    (h : Err.message m ∈ (ValidateLog.maxDays env c st ⟨[]⟩).Errors) :
    m.code = .ErrNotValidLogMaxDays := by
  simp only [ValidateLog.maxDays] at h
  have h1 := ToIntE_not_message env (viper.Get st c.LogMaxDaysKey) m
  split_ifs at h <;>
    simp [appendIfErr_Errors, Append_leaf_Errors, h1, Messages, Message.Renew] at h
  simp [h]

theorem maxBackups_mem_iff (env : Env) (c : Constants) (st : viper.Store) (m : Message) :
    Err.message m ∈ (ValidateLog.maxBackups env c st ⟨[]⟩).Errors ↔
      m = (Messages .ErrNotValidLogMaxBackups).Renew
          [.int c.MinLogMaxBackups, .int c.MaxLogMaxBackups,
            .int (cast.ToIntE env (viper.Get st c.LogMaxBackupsKey)).1] ∧
        ((cast.ToIntE env (viper.Get st c.LogMaxBackupsKey)).1 < c.MinLogMaxDays ∨
          (cast.ToIntE env (viper.Get st c.LogMaxBackupsKey)).1 > c.MaxLogMaxDays) := by
  simp only [ValidateLog.maxBackups]
  have h1 := ToIntE_not_message env (viper.Get st c.LogMaxBackupsKey) m
  split_ifs with h <;>
    simp [appendIfErr_Errors, Append_leaf_Errors, h1] <;> simp_all

theorem port_mem_iff (env : Env) (c : Constants) (st : viper.Store) (m : Message) :
    Err.message m ∈ (ValidateServer.port env c st ⟨[]⟩).Errors ↔
      m = (Messages .ErrNotValidServerPort).Renew
          [.int c.MinPort, .int c.MaxPort,
            .int (cast.ToIntE env (viper.Get st c.ServerPortKey)).1] ∧
        ¬ (1 ≤ (cast.ToIntE env (viper.Get st c.ServerPortKey)).1 ∧
          (cast.ToIntE env (viper.Get st c.ServerPortKey)).1 ≤ 65535) := by
  simp only [ValidateServer.port, IsPort_Itoa]
  have h1 := ToIntE_not_message env (viper.Get st c.ServerPortKey) m
  split_ifs with h
  · simp only [appendIfErr_Errors, Append_leaf_Errors, List.nil_append, List.mem_append,
      List.mem_singleton, Err.message.injEq, h1, false_or]
    simp only [Bool.not_eq_true', decide_eq_false_iff_not] at h
    exact ⟨fun hm => ⟨hm, h⟩, fun hm => hm.1⟩
  · simp only [appendIfErr_Errors, List.nil_append, h1, false_iff, not_and, not_not]
    intro _
    simpa using h

theorem pidFile_code (env : Env) (c : Constants) (st : viper.Store) (m : Message)
    (h : Err.message m ∈ (ValidateServer.pidFile env c st ⟨[]⟩).Errors) :
    m.code = .ErrNotValidPidFile := by
  simp only [ValidateServer.pidFile] at h
  have h1 := ToStringE_not_message (viper.Get st c.ServerPidFileKey) m
  split_ifs at h <;>
    simp [appendIfErr_Errors, Append_leaf_Errors, h1, os_not_message, Messages,
      Message.Renew] at h <;>
    simp [h]

theorem ValidateLog_entries (env : Env) (c : Constants) (st : viper.Store) :
    entries (ValidateLog env c st) =
      (ValidateLog.fileName env c st ⟨[]⟩).Errors ++
      ((ValidateLog.level c st ⟨[]⟩).Errors ++
      ((ValidateLog.format c st ⟨[]⟩).Errors ++
      ((ValidateLog.maxSize env c st ⟨[]⟩).Errors ++
      ((ValidateLog.maxDays env c st ⟨[]⟩).Errors ++
      (ValidateLog.maxBackups env c st ⟨[]⟩).Errors)))) := by
  rw [ValidateLog, entries_ErrorOrNil, ValidateLog_merr_Errors]

theorem ValidateServer_entries (env : Env) (c : Constants) (st : viper.Store) :
    entries (ValidateServer env c st) =
      (ValidateServer.port env c st ⟨[]⟩).Errors ++
      (ValidateServer.pidFile env c st ⟨[]⟩).Errors := by
  rw [ValidateServer, entries_ErrorOrNil, ValidateServer_merr_Errors]

theorem ne_none_of_mem_entries (r : Option GoError) (e : Err) (h : e ∈ entries r) :
    r ≠ none := by
  rintro rfl
  simp [entries] at h

/-- C7: for a string `s` stored under `log.level`, `ValidateLog` reports the
not-valid-log-level message, instantiated with `s`, exactly when `s` is none of the
six valid levels; the level `verbose` makes `ValidateLog` return an error. -/
theorem ValidateLog_level (env : Env) (c : Constants) (st : viper.Store) (s : String)
    (hs : viper.Get st c.LogLevelKey = .str s) :
    (∀ args, Err.message ((Messages .ErrNotValidLogLevel).Renew args) ∈
        entries (ValidateLog env c st) ↔
      args = [.str s] ∧
        ¬ (s = "debug" ∨ s = "info" ∨ s = "warn" ∨ s = "warning" ∨ s = "error" ∨
          s = "fatal")) ∧
    (s = "verbose" → ValidateLog env c st ≠ none) := by
  have key : ∀ args, Err.message ((Messages .ErrNotValidLogLevel).Renew args) ∈
        entries (ValidateLog env c st) ↔
      args = [.str s] ∧
        ¬ (s = "debug" ∨ s = "info" ∨ s = "warn" ∨ s = "warning" ∨ s = "error" ∨
          s = "fatal") := by
    intro args
    rw [ValidateLog_entries]
    simp only [List.mem_append]
    have h1 := fileName_code env c st ((Messages .ErrNotValidLogLevel).Renew args)
    have h3 := format_code c st ((Messages .ErrNotValidLogLevel).Renew args)
    have h4 := maxSize_code env c st ((Messages .ErrNotValidLogLevel).Renew args)
    have h5 := maxDays_code env c st ((Messages .ErrNotValidLogLevel).Renew args)
    have h6 := maxBackups_mem_iff env c st ((Messages .ErrNotValidLogLevel).Renew args)
    have h2 := level_mem_iff c st ((Messages .ErrNotValidLogLevel).Renew args)
    rw [hs] at h2
    simp only [Messages, Message.Renew, cast.ToStringE, ValidLogLevels, Message.mk.injEq,
      List.mem_cons, List.mem_singleton, List.not_mem_nil, or_false, true_and,
      List.cons.injEq, Value.str.injEq, and_true, reduceCtorEq, false_and, imp_false]
      at h1 h2 h3 h4 h5 h6
    have hm : (Messages .ErrNotValidLogLevel).Renew args = ⟨.ErrNotValidLogLevel, args⟩ := rfl
    rw [hm]
    simp only [h1, h2, h3, h4, h5, h6, false_or, or_false]
  refine ⟨key, ?_⟩
  rintro rfl
  exact ne_none_of_mem_entries _ _ ((key [.str "verbose"]).mpr ⟨rfl, by decide⟩)

/-- Witness of C7: the sample store with level `verbose` is rejected by
`ValidateLog`. -/
theorem ValidateLog_level_witness :
    viper.Get threeViolationsStore sampleConstants.LogLevelKey = .str "verbose" ∧
    ValidateLog unixEnv sampleConstants threeViolationsStore ≠ none :=
  ⟨by decide,
    (ValidateLog_level unixEnv sampleConstants threeViolationsStore "verbose"
      (by decide)).2 rfl⟩

/-- C6: for an integer `p` stored under `server.port`, `ValidateServer` reports the
not-valid-server-port message exactly when `p` is outside 1..65535, and the message
is instantiated with `MinPort`, `MaxPort` and `p`; a port outside the range makes
`ValidateServer` fail, a port inside it with an absolute, valid pid file passes. -/
theorem ValidateServer_port (env : Env) (c : Constants) (st : viper.Store) (p : Int)
    (hp : viper.Get st c.ServerPortKey = .int p) :
    (∀ args, Err.message ((Messages .ErrNotValidServerPort).Renew args) ∈
        entries (ValidateServer env c st) ↔
      args = [.int c.MinPort, .int c.MaxPort, .int p] ∧ ¬ (1 ≤ p ∧ p ≤ 65535)) ∧
    (¬ (1 ≤ p ∧ p ≤ 65535) → ValidateServer env c st ≠ none) ∧
    ((1 ≤ p ∧ p ≤ 65535) →
      ∀ f, viper.Get st c.ServerPidFileKey = .str f → env.IsAbs f = true →
        env.IsFilePath f = true → ValidateServer env c st = none) := by
  have key : ∀ args, Err.message ((Messages .ErrNotValidServerPort).Renew args) ∈
        entries (ValidateServer env c st) ↔
      args = [.int c.MinPort, .int c.MaxPort, .int p] ∧ ¬ (1 ≤ p ∧ p ≤ 65535) := by
    intro args
    rw [ValidateServer_entries]
    simp only [List.mem_append]
    have h1 := port_mem_iff env c st ((Messages .ErrNotValidServerPort).Renew args)
    have h2 := pidFile_code env c st ((Messages .ErrNotValidServerPort).Renew args)
    rw [hp] at h1
    simp only [Messages, Message.Renew, cast.ToIntE, Message.mk.injEq, true_and,
      reduceCtorEq, imp_false] at h1 h2
    have hm : (Messages .ErrNotValidServerPort).Renew args =
        ⟨.ErrNotValidServerPort, args⟩ := rfl
    rw [hm]
    simp only [h1, h2, or_false]
  refine ⟨key, ?_, ?_⟩
  · intro h
    exact ne_none_of_mem_entries _ _ ((key _).mpr ⟨rfl, h⟩)
  · intro h f hf habs hvalid
    rw [ValidateServer, ErrorOrNil_eq_none_iff, ValidateServer_merr_Errors]
    simp [ValidateServer.port, ValidateServer.pidFile, hp, hf, cast.ToIntE,
      cast.ToStringE, IsPort_Itoa, h, habs, hvalid, appendIfErr]

/-- Witness of C6: with the default pid file, port 8080 passes `ValidateServer` and
port 70000 fails it. -/
theorem ValidateServer_port_witness :
    ValidateServer unixEnv sampleConstants defaultStore = none ∧
    ValidateServer unixEnv sampleConstants badPortStore ≠ none :=
  ⟨(ValidateServer_port unixEnv sampleConstants defaultStore 8080 (by decide)).2.2
      (by decide) "/srv/app/go-template.pid" (by decide) (by decide) (by decide),
    (ValidateServer_port unixEnv sampleConstants badPortStore 70000 (by decide)).2.1
      (by decide)⟩

/-- What the code does for `log.maxBackups`: for an integer `v` stored under the key,
the not-valid-log-max-backups message, instantiated with the backups bounds and `v`,
is reported exactly when `v` is outside `[MinLogMaxDays, MaxLogMaxDays]`. -/
theorem ValidateLog_maxBackups_iff (env : Env) (c : Constants) (st : viper.Store) (v : Int)
    (hv : viper.Get st c.LogMaxBackupsKey = .int v) (args : List Value) :
    Err.message ((Messages .ErrNotValidLogMaxBackups).Renew args) ∈
        entries (ValidateLog env c st) ↔
      args = [.int c.MinLogMaxBackups, .int c.MaxLogMaxBackups, .int v] ∧
        (v < c.MinLogMaxDays ∨ v > c.MaxLogMaxDays) := by
  rw [ValidateLog_entries]
  simp only [List.mem_append]
  have h1 := fileName_code env c st ((Messages .ErrNotValidLogMaxBackups).Renew args)
  have h2 := level_mem_iff c st ((Messages .ErrNotValidLogMaxBackups).Renew args)
  have h3 := format_code c st ((Messages .ErrNotValidLogMaxBackups).Renew args)
  have h4 := maxSize_code env c st ((Messages .ErrNotValidLogMaxBackups).Renew args)
  have h5 := maxDays_code env c st ((Messages .ErrNotValidLogMaxBackups).Renew args)
  have h6 := maxBackups_mem_iff env c st ((Messages .ErrNotValidLogMaxBackups).Renew args)
  rw [hv] at h6
  simp only [Messages, Message.Renew, cast.ToIntE, Message.mk.injEq, true_and,
    reduceCtorEq, false_and, imp_false, or_self, iff_false] at h1 h2 h3 h4 h5 h6
  have hm : (Messages .ErrNotValidLogMaxBackups).Renew args =
      ⟨.ErrNotValidLogMaxBackups, args⟩ := rfl
  rw [hm]
  simp only [h1, h2, h3, h4, h5, h6, false_or]

/-- C4 (the code at the failing input): with `MinLogMaxDays = 1`, `MaxLogMaxDays = 7`,
`MinLogMaxBackups = 1`, `MaxLogMaxBackups = 100` and `log.maxBackups = 50`, the value
lies inside the backups range and `ValidateLog` still reports the
not-valid-log-max-backups message, which names the range 1..100. -/
theorem ValidateLog_maxBackups_checked_against_days :
    viper.Get backupsStore sampleConstants.LogMaxBackupsKey = .int 50 ∧
    (sampleConstants.MinLogMaxBackups ≤ 50 ∧ 50 ≤ sampleConstants.MaxLogMaxBackups) ∧
    Err.message ((Messages .ErrNotValidLogMaxBackups).Renew [.int 1, .int 100, .int 50]) ∈
      entries (ValidateLog unixEnv sampleConstants backupsStore) := by
  decide

/-- C5 (counterexample): on the sample store whose `server.pidFile` is the empty
string, absolutizing the empty path gives the working directory and `ValidateServer`
returns no error. -/
theorem ValidateServer_empty_pidFile_accepted :
    viper.Get emptyPidFileStore sampleConstants.ServerPidFileKey = .str "" ∧
    unixEnv.Abs "" = ("/srv/app", none) ∧
    ValidateServer unixEnv sampleConstants emptyPidFileStore = none := by
  decide

/-- C5 (amended): when `server.pidFile` is the empty string, which is not absolute
and is absolutized to the working directory `wd`, `ValidateServer` returns no error
exactly when the port is coerced without error, is a valid port, and the file-path
validator accepts `wd`; the empty pid file is not an error of its own. -/
theorem ValidateServer_empty_pidFile (env : Env) (c : Constants) (st : viper.Store)
    (wd : String) (hpid : viper.Get st c.ServerPidFileKey = .str "")
    (habs : env.IsAbs "" = false) (hwd : env.Abs "" = (wd, none)) :
    ValidateServer env c st = none ↔
      ((cast.ToIntE env (viper.Get st c.ServerPortKey)).2 = none ∧
        govalidator.IsPort
          (strconv.Itoa (cast.ToIntE env (viper.Get st c.ServerPortKey)).1) = true) ∧
      env.IsFilePath wd = true := by
  rw [ValidateServer, ErrorOrNil_eq_none_iff, ValidateServer_merr_Errors]
  simp only [List.append_eq_nil]
  have h1 : (ValidateServer.port env c st ⟨[]⟩).Errors = [] ↔
      ((cast.ToIntE env (viper.Get st c.ServerPortKey)).2 = none ∧
        govalidator.IsPort
          (strconv.Itoa (cast.ToIntE env (viper.Get st c.ServerPortKey)).1) = true) := by
    simp only [ValidateServer.port]
    split_ifs with h
    · simp only [Append_leaf_Errors, appendIfErr_Errors]
      simp at h
      simp [h]
    · simp only [appendIfErr_Errors]
      simp only [Bool.not_eq_true', Bool.not_eq_false] at h
      generalize (cast.ToIntE env (viper.Get st c.ServerPortKey)).2 = o
      cases o <;> simp [h]
  have h2 : (ValidateServer.pidFile env c st ⟨[]⟩).Errors = [] ↔
      env.IsFilePath wd = true := by
    simp only [ValidateServer.pidFile, hpid, cast.ToStringE, habs, hwd]
    by_cases hval : env.IsFilePath wd = true <;>
      simp [hval, appendIfErr, multierror.Append]
  rw [h1, h2]

/-- Witness of the amended C5 on the sample store with an empty pid file. -/
theorem ValidateServer_empty_pidFile_witness :
    ValidateServer unixEnv sampleConstants emptyPidFileStore = none ↔
      ((cast.ToIntE unixEnv
          (viper.Get emptyPidFileStore sampleConstants.ServerPortKey)).2 = none ∧
        govalidator.IsPort (strconv.Itoa (cast.ToIntE unixEnv
          (viper.Get emptyPidFileStore sampleConstants.ServerPortKey)).1) = true) ∧
      unixEnv.IsFilePath "/srv/app" = true :=
  ValidateServer_empty_pidFile unixEnv sampleConstants emptyPidFileStore "/srv/app"
    (by decide) (by decide) (by decide)

/-- C8: `SetDefaultConfig` is idempotent, and it leaves the resolved value of every
key with an explicitly set value unchanged. -/
theorem SetDefaultConfig_idempotent (env : Env) (c : Constants) (baseDir : String)
    (st : viper.Store) :
    SetDefaultConfig env c baseDir (SetDefaultConfig env c baseDir st) =
      SetDefaultConfig env c baseDir st ∧
    ∀ key, st.override key ≠ .nil →
      viper.Get (SetDefaultConfig env c baseDir st) key = viper.Get st key := by
  constructor
  · simp only [SetDefaultConfig, viper.SetDefault, viper.Store.mk.injEq, true_and]
    funext k
    split_ifs <;> rfl
  · intro key h
    simp only [viper.Get, SetDefaultConfig, viper.SetDefault]
    rw [if_pos h, if_pos h]

/-- Witness of C8 on the sample store: the default log level is installed, a second
call changes nothing, and an explicitly set level is kept. -/
theorem SetDefaultConfig_idempotent_witness :
    viper.Get (SetDefaultConfig unixEnv sampleConstants "/srv/app" emptyStore)
      "log.level" = .str "info" ∧
    SetDefaultConfig unixEnv sampleConstants "/srv/app"
      (SetDefaultConfig unixEnv sampleConstants "/srv/app" emptyStore) =
      SetDefaultConfig unixEnv sampleConstants "/srv/app" emptyStore ∧
    viper.Get (SetDefaultConfig unixEnv sampleConstants "/srv/app"
      (viper.Set emptyStore "log.level" (.str "debug"))) "log.level" = .str "debug" :=
  ⟨by decide,
    (SetDefaultConfig_idempotent unixEnv sampleConstants "/srv/app" emptyStore).1,
    by
      rw [(SetDefaultConfig_idempotent unixEnv sampleConstants "/srv/app"
        (viper.Set emptyStore "log.level" (.str "debug"))).2 "log.level" (by decide)]
      decide⟩

theorem Get_Set_ne (st : viper.Store) (k k2 : String) (v : Value) (h : k2 ≠ k) :
    viper.Get (viper.Set st k v) k2 = viper.Get st k2 := by
  simp [viper.Get, viper.Set, h]

theorem Get_Set_same (st : viper.Store) (k : String) (v : Value) (h : v ≠ .nil) :
    viper.Get (viper.Set st k v) k = v := by
  simp [viper.Get, viper.Set, h]

theorem ToStringE_fail (v : Value) (e : Err) (h : (cast.ToStringE v).2 = some e) :
    cast.ToStringE v = ("", some e) := by
  cases v <;> simp_all [cast.ToStringE]

theorem ToIntE_fail (env : Env) (v : Value) (e : Err)
    (h : (cast.ToIntE env v).2 = some e) : cast.ToIntE env v = (0, some e) := by
  cases v <;> simp_all [cast.ToIntE]
  split at h <;> simp_all

theorem fileName_Set_ne (env : Env) (c : Constants) (st : viper.Store) (k : String) (v : Value)
    (merr : multierror.Error) (h : c.LogFileNameKey ≠ k) :
    ValidateLog.fileName env c (viper.Set st k v) merr = ValidateLog.fileName env c st merr := by
  simp only [ValidateLog.fileName, Get_Set_ne st k _ v h]

theorem level_Set_ne (c : Constants) (st : viper.Store) (k : String) (v : Value)
    (merr : multierror.Error) (h : c.LogLevelKey ≠ k) :
    ValidateLog.level c (viper.Set st k v) merr = ValidateLog.level c st merr := by
  simp only [ValidateLog.level, Get_Set_ne st k _ v h]

theorem format_Set_ne (c : Constants) (st : viper.Store) (k : String) (v : Value)
    (merr : multierror.Error) (h : c.LogFormatKey ≠ k) :
    ValidateLog.format c (viper.Set st k v) merr = ValidateLog.format c st merr := by
  simp only [ValidateLog.format, Get_Set_ne st k _ v h]

theorem maxSize_Set_ne (env : Env) (c : Constants) (st : viper.Store) (k : String) (v : Value)
    (merr : multierror.Error) (h : c.LogMaxSizeKey ≠ k) :
    ValidateLog.maxSize env c (viper.Set st k v) merr = ValidateLog.maxSize env c st merr := by
  simp only [ValidateLog.maxSize, Get_Set_ne st k _ v h]

theorem maxDays_Set_ne (env : Env) (c : Constants) (st : viper.Store) (k : String) (v : Value)
    (merr : multierror.Error) (h : c.LogMaxDaysKey ≠ k) :
    ValidateLog.maxDays env c (viper.Set st k v) merr = ValidateLog.maxDays env c st merr := by
  simp only [ValidateLog.maxDays, Get_Set_ne st k _ v h]

theorem maxBackups_Set_ne (env : Env) (c : Constants) (st : viper.Store) (k : String) (v : Value)
    (merr : multierror.Error) (h : c.LogMaxBackupsKey ≠ k) :
    ValidateLog.maxBackups env c (viper.Set st k v) merr = ValidateLog.maxBackups env c st merr := by
  simp only [ValidateLog.maxBackups, Get_Set_ne st k _ v h]

theorem fileName_fail (env : Env) (c : Constants) (st : viper.Store) (e : Err)
    (h : (cast.ToStringE (viper.Get st c.LogFileNameKey)).2 = some e) :
    (ValidateLog.fileName env c st ⟨[]⟩).Errors =
      e :: (ValidateLog.fileName env c (viper.Set st c.LogFileNameKey (.str "")) ⟨[]⟩).Errors := by
  have hz : viper.Get (viper.Set st c.LogFileNameKey (.str "")) c.LogFileNameKey = .str "" :=
    Get_Set_same _ _ _ (by simp)
  have := fileName_Errors env c (viper.Set st c.LogFileNameKey (.str "")) ⟨[e]⟩
  rw [List.singleton_append.symm, ← this]
  have hf := ToStringE_fail _ e h
  simp only [ValidateLog.fileName, hz, hf]
  simp only [cast.ToStringE, cast.ToIntE, appendIfErr, multierror.Append, List.nil_append]

theorem level_fail (c : Constants) (st : viper.Store) (e : Err)
    (h : (cast.ToStringE (viper.Get st c.LogLevelKey)).2 = some e) :
    (ValidateLog.level c st ⟨[]⟩).Errors =
      e :: (ValidateLog.level c (viper.Set st c.LogLevelKey (.str "")) ⟨[]⟩).Errors := by
  have hz : viper.Get (viper.Set st c.LogLevelKey (.str "")) c.LogLevelKey = .str "" :=
    Get_Set_same _ _ _ (by simp)
  have := level_Errors c (viper.Set st c.LogLevelKey (.str "")) ⟨[e]⟩
  rw [List.singleton_append.symm, ← this]
  have hf := ToStringE_fail _ e h
  simp only [ValidateLog.level, hz, hf]
  simp only [cast.ToStringE, cast.ToIntE, appendIfErr, multierror.Append, List.nil_append]

theorem format_fail (c : Constants) (st : viper.Store) (e : Err)
    (h : (cast.ToStringE (viper.Get st c.LogFormatKey)).2 = some e) :
    (ValidateLog.format c st ⟨[]⟩).Errors =
      e :: (ValidateLog.format c (viper.Set st c.LogFormatKey (.str "")) ⟨[]⟩).Errors := by
  have hz : viper.Get (viper.Set st c.LogFormatKey (.str "")) c.LogFormatKey = .str "" :=
    Get_Set_same _ _ _ (by simp)
  have := format_Errors c (viper.Set st c.LogFormatKey (.str "")) ⟨[e]⟩
  rw [List.singleton_append.symm, ← this]
  have hf := ToStringE_fail _ e h
  simp only [ValidateLog.format, hz, hf]
  simp only [cast.ToStringE, cast.ToIntE, appendIfErr, multierror.Append, List.nil_append]

theorem maxSize_fail (env : Env) (c : Constants) (st : viper.Store) (e : Err)
    (h : (cast.ToIntE env (viper.Get st c.LogMaxSizeKey)).2 = some e) :
    (ValidateLog.maxSize env c st ⟨[]⟩).Errors =
      e :: (ValidateLog.maxSize env c (viper.Set st c.LogMaxSizeKey (.int 0)) ⟨[]⟩).Errors := by
  have hz : viper.Get (viper.Set st c.LogMaxSizeKey (.int 0)) c.LogMaxSizeKey = .int 0 :=
    Get_Set_same _ _ _ (by simp)
  have := maxSize_Errors env c (viper.Set st c.LogMaxSizeKey (.int 0)) ⟨[e]⟩
  rw [List.singleton_append.symm, ← this]
  have hf := ToIntE_fail env _ e h
  simp only [ValidateLog.maxSize, hz, hf]
  simp only [cast.ToStringE, cast.ToIntE, appendIfErr, multierror.Append, List.nil_append]

theorem maxDays_fail (env : Env) (c : Constants) (st : viper.Store) (e : Err)
    (h : (cast.ToIntE env (viper.Get st c.LogMaxDaysKey)).2 = some e) :
    (ValidateLog.maxDays env c st ⟨[]⟩).Errors =
      e :: (ValidateLog.maxDays env c (viper.Set st c.LogMaxDaysKey (.int 0)) ⟨[]⟩).Errors := by
  have hz : viper.Get (viper.Set st c.LogMaxDaysKey (.int 0)) c.LogMaxDaysKey = .int 0 :=
    Get_Set_same _ _ _ (by simp)
  have := maxDays_Errors env c (viper.Set st c.LogMaxDaysKey (.int 0)) ⟨[e]⟩
  rw [List.singleton_append.symm, ← this]
  have hf := ToIntE_fail env _ e h
  simp only [ValidateLog.maxDays, hz, hf]
  simp only [cast.ToStringE, cast.ToIntE, appendIfErr, multierror.Append, List.nil_append]

theorem maxBackups_fail (env : Env) (c : Constants) (st : viper.Store) (e : Err)
    (h : (cast.ToIntE env (viper.Get st c.LogMaxBackupsKey)).2 = some e) :
    (ValidateLog.maxBackups env c st ⟨[]⟩).Errors =
      e :: (ValidateLog.maxBackups env c (viper.Set st c.LogMaxBackupsKey (.int 0)) ⟨[]⟩).Errors := by
  have hz : viper.Get (viper.Set st c.LogMaxBackupsKey (.int 0)) c.LogMaxBackupsKey = .int 0 :=
    Get_Set_same _ _ _ (by simp)
  have := maxBackups_Errors env c (viper.Set st c.LogMaxBackupsKey (.int 0)) ⟨[e]⟩
  rw [List.singleton_append.symm, ← this]
  have hf := ToIntE_fail env _ e h
  simp only [ValidateLog.maxBackups, hz, hf]
  simp only [cast.ToStringE, cast.ToIntE, appendIfErr, multierror.Append, List.nil_append]

theorem fileName_coercion (env : Env) (c : Constants) (st : viper.Store) (e : Err)
    (hk : [c.LogFileNameKey, c.LogLevelKey, c.LogFormatKey, c.LogMaxSizeKey,
      c.LogMaxDaysKey, c.LogMaxBackupsKey].Nodup)
    (h : (cast.ToStringE (viper.Get st c.LogFileNameKey)).2 = some e) :
    ∃ pre post, entries (ValidateLog env c st) = pre ++ e :: post ∧
      entries (ValidateLog env c (viper.Set st c.LogFileNameKey (.str ""))) = pre ++ post := by
  refine ⟨[],
    (ValidateLog.fileName env c (viper.Set st c.LogFileNameKey (.str "")) ⟨[]⟩).Errors ++ (ValidateLog.level c st ⟨[]⟩).Errors ++ (ValidateLog.format c st ⟨[]⟩).Errors ++ (ValidateLog.maxSize env c st ⟨[]⟩).Errors ++ (ValidateLog.maxDays env c st ⟨[]⟩).Errors ++ (ValidateLog.maxBackups env c st ⟨[]⟩).Errors, ?_, ?_⟩
  · rw [ValidateLog_entries, fileName_fail env c st e h]
    simp only [List.append_assoc, List.cons_append, List.nil_append]
  · rw [ValidateLog_entries]
    rw [level_Set_ne c st _ _ _ (fun h => by simp [h] at hk), format_Set_ne c st _ _ _ (fun h => by simp [h] at hk), maxSize_Set_ne env c st _ _ _ (fun h => by simp [h] at hk), maxDays_Set_ne env c st _ _ _ (fun h => by simp [h] at hk), maxBackups_Set_ne env c st _ _ _ (fun h => by simp [h] at hk)]
    simp only [List.append_assoc, List.nil_append]

theorem level_coercion (env : Env) (c : Constants) (st : viper.Store) (e : Err)
    (hk : [c.LogFileNameKey, c.LogLevelKey, c.LogFormatKey, c.LogMaxSizeKey,
      c.LogMaxDaysKey, c.LogMaxBackupsKey].Nodup)
    (h : (cast.ToStringE (viper.Get st c.LogLevelKey)).2 = some e) :
    ∃ pre post, entries (ValidateLog env c st) = pre ++ e :: post ∧
      entries (ValidateLog env c (viper.Set st c.LogLevelKey (.str ""))) = pre ++ post := by
  refine ⟨(ValidateLog.fileName env c st ⟨[]⟩).Errors,
    (ValidateLog.level c (viper.Set st c.LogLevelKey (.str "")) ⟨[]⟩).Errors ++ (ValidateLog.format c st ⟨[]⟩).Errors ++ (ValidateLog.maxSize env c st ⟨[]⟩).Errors ++ (ValidateLog.maxDays env c st ⟨[]⟩).Errors ++ (ValidateLog.maxBackups env c st ⟨[]⟩).Errors, ?_, ?_⟩
  · rw [ValidateLog_entries, level_fail c st e h]
    simp only [List.append_assoc, List.cons_append, List.nil_append]
  · rw [ValidateLog_entries]
    rw [fileName_Set_ne env c st _ _ _ (fun h => by simp [h] at hk), format_Set_ne c st _ _ _ (fun h => by simp [h] at hk), maxSize_Set_ne env c st _ _ _ (fun h => by simp [h] at hk), maxDays_Set_ne env c st _ _ _ (fun h => by simp [h] at hk), maxBackups_Set_ne env c st _ _ _ (fun h => by simp [h] at hk)]
    simp only [List.append_assoc, List.nil_append]

theorem format_coercion (env : Env) (c : Constants) (st : viper.Store) (e : Err)
    (hk : [c.LogFileNameKey, c.LogLevelKey, c.LogFormatKey, c.LogMaxSizeKey,
      c.LogMaxDaysKey, c.LogMaxBackupsKey].Nodup)
    (h : (cast.ToStringE (viper.Get st c.LogFormatKey)).2 = some e) :
    ∃ pre post, entries (ValidateLog env c st) = pre ++ e :: post ∧
      entries (ValidateLog env c (viper.Set st c.LogFormatKey (.str ""))) = pre ++ post := by
  refine ⟨(ValidateLog.fileName env c st ⟨[]⟩).Errors ++ (ValidateLog.level c st ⟨[]⟩).Errors,
    (ValidateLog.format c (viper.Set st c.LogFormatKey (.str "")) ⟨[]⟩).Errors ++ (ValidateLog.maxSize env c st ⟨[]⟩).Errors ++ (ValidateLog.maxDays env c st ⟨[]⟩).Errors ++ (ValidateLog.maxBackups env c st ⟨[]⟩).Errors, ?_, ?_⟩
  · rw [ValidateLog_entries, format_fail c st e h]
    simp only [List.append_assoc, List.cons_append, List.nil_append]
  · rw [ValidateLog_entries]
    rw [fileName_Set_ne env c st _ _ _ (fun h => by simp [h] at hk), level_Set_ne c st _ _ _ (fun h => by simp [h] at hk), maxSize_Set_ne env c st _ _ _ (fun h => by simp [h] at hk), maxDays_Set_ne env c st _ _ _ (fun h => by simp [h] at hk), maxBackups_Set_ne env c st _ _ _ (fun h => by simp [h] at hk)]
    simp only [List.append_assoc, List.nil_append]

theorem maxSize_coercion (env : Env) (c : Constants) (st : viper.Store) (e : Err)
    (hk : [c.LogFileNameKey, c.LogLevelKey, c.LogFormatKey, c.LogMaxSizeKey,
      c.LogMaxDaysKey, c.LogMaxBackupsKey].Nodup)
    (h : (cast.ToIntE env (viper.Get st c.LogMaxSizeKey)).2 = some e) :
    ∃ pre post, entries (ValidateLog env c st) = pre ++ e :: post ∧
      entries (ValidateLog env c (viper.Set st c.LogMaxSizeKey (.int 0))) = pre ++ post := by
  refine ⟨(ValidateLog.fileName env c st ⟨[]⟩).Errors ++ (ValidateLog.level c st ⟨[]⟩).Errors ++ (ValidateLog.format c st ⟨[]⟩).Errors,
    (ValidateLog.maxSize env c (viper.Set st c.LogMaxSizeKey (.int 0)) ⟨[]⟩).Errors ++ (ValidateLog.maxDays env c st ⟨[]⟩).Errors ++ (ValidateLog.maxBackups env c st ⟨[]⟩).Errors, ?_, ?_⟩
  · rw [ValidateLog_entries, maxSize_fail env c st e h]
    simp only [List.append_assoc, List.cons_append, List.nil_append]
  · rw [ValidateLog_entries]
    rw [fileName_Set_ne env c st _ _ _ (fun h => by simp [h] at hk), level_Set_ne c st _ _ _ (fun h => by simp [h] at hk), format_Set_ne c st _ _ _ (fun h => by simp [h] at hk), maxDays_Set_ne env c st _ _ _ (fun h => by simp [h] at hk), maxBackups_Set_ne env c st _ _ _ (fun h => by simp [h] at hk)]
    simp only [List.append_assoc, List.nil_append]

theorem maxDays_coercion (env : Env) (c : Constants) (st : viper.Store) (e : Err)
    (hk : [c.LogFileNameKey, c.LogLevelKey, c.LogFormatKey, c.LogMaxSizeKey,
      c.LogMaxDaysKey, c.LogMaxBackupsKey].Nodup)
    (h : (cast.ToIntE env (viper.Get st c.LogMaxDaysKey)).2 = some e) :
    ∃ pre post, entries (ValidateLog env c st) = pre ++ e :: post ∧
      entries (ValidateLog env c (viper.Set st c.LogMaxDaysKey (.int 0))) = pre ++ post := by
  refine ⟨(ValidateLog.fileName env c st ⟨[]⟩).Errors ++ (ValidateLog.level c st ⟨[]⟩).Errors ++ (ValidateLog.format c st ⟨[]⟩).Errors ++ (ValidateLog.maxSize env c st ⟨[]⟩).Errors,
    (ValidateLog.maxDays env c (viper.Set st c.LogMaxDaysKey (.int 0)) ⟨[]⟩).Errors ++ (ValidateLog.maxBackups env c st ⟨[]⟩).Errors, ?_, ?_⟩
  · rw [ValidateLog_entries, maxDays_fail env c st e h]
    simp only [List.append_assoc, List.cons_append, List.nil_append]
  · rw [ValidateLog_entries]
    rw [fileName_Set_ne env c st _ _ _ (fun h => by simp [h] at hk), level_Set_ne c st _ _ _ (fun h => by simp [h] at hk), format_Set_ne c st _ _ _ (fun h => by simp [h] at hk), maxSize_Set_ne env c st _ _ _ (fun h => by simp [h] at hk), maxBackups_Set_ne env c st _ _ _ (fun h => by simp [h] at hk)]
    simp only [List.append_assoc, List.nil_append]

theorem maxBackups_coercion (env : Env) (c : Constants) (st : viper.Store) (e : Err)
    (hk : [c.LogFileNameKey, c.LogLevelKey, c.LogFormatKey, c.LogMaxSizeKey,
      c.LogMaxDaysKey, c.LogMaxBackupsKey].Nodup)
    (h : (cast.ToIntE env (viper.Get st c.LogMaxBackupsKey)).2 = some e) :
    ∃ pre post, entries (ValidateLog env c st) = pre ++ e :: post ∧
      entries (ValidateLog env c (viper.Set st c.LogMaxBackupsKey (.int 0))) = pre ++ post := by
  refine ⟨(ValidateLog.fileName env c st ⟨[]⟩).Errors ++ (ValidateLog.level c st ⟨[]⟩).Errors ++ (ValidateLog.format c st ⟨[]⟩).Errors ++ (ValidateLog.maxSize env c st ⟨[]⟩).Errors ++ (ValidateLog.maxDays env c st ⟨[]⟩).Errors,
    (ValidateLog.maxBackups env c (viper.Set st c.LogMaxBackupsKey (.int 0)) ⟨[]⟩).Errors, ?_, ?_⟩
  · rw [ValidateLog_entries, maxBackups_fail env c st e h]
    simp only [List.append_assoc, List.cons_append, List.nil_append]
  · rw [ValidateLog_entries]
    rw [fileName_Set_ne env c st _ _ _ (fun h => by simp [h] at hk), level_Set_ne c st _ _ _ (fun h => by simp [h] at hk), format_Set_ne c st _ _ _ (fun h => by simp [h] at hk), maxSize_Set_ne env c st _ _ _ (fun h => by simp [h] at hk), maxDays_Set_ne env c st _ _ _ (fun h => by simp [h] at hk)]
    simp only [List.append_assoc, List.nil_append]

theorem level_of_str (c : Constants) (st : viper.Store) (s : String)
    (h : viper.Get st c.LogLevelKey = .str s) :
    (ValidateLog.level c st ⟨[]⟩).Errors =
      if s ∈ ValidLogLevels then []
      else [.message ((Messages .ErrNotValidLogLevel).Renew [.str s])] := by
  simp only [ValidateLog.level, h, cast.ToStringE, common.ElementInSlice, appendIfErr]
  by_cases hs : s ∈ ValidLogLevels <;> simp [hs, multierror.Append]

/-- C9: in `ValidateLog` a coercion failure on a field adds the coercion error and
leaves every check in place: the aggregate is the one obtained for the zero value of
the field (the empty string, or 0) with the coercion error inserted. For `log.level`
the field contributes two entries, the coercion error and the not-valid-log-level
message for the empty string, next to what the other fields report. -/
theorem ValidateLog_coercion_failure (env : Env) (c : Constants) (st : viper.Store)
    (hk : [c.LogFileNameKey, c.LogLevelKey, c.LogFormatKey, c.LogMaxSizeKey,
      c.LogMaxDaysKey, c.LogMaxBackupsKey].Nodup) :
    (∀ k ∈ [c.LogFileNameKey, c.LogLevelKey, c.LogFormatKey], ∀ e,
      (cast.ToStringE (viper.Get st k)).2 = some e →
      ∃ pre post, entries (ValidateLog env c st) = pre ++ e :: post ∧
        entries (ValidateLog env c (viper.Set st k (.str ""))) = pre ++ post) ∧
    (∀ k ∈ [c.LogMaxSizeKey, c.LogMaxDaysKey, c.LogMaxBackupsKey], ∀ e,
      (cast.ToIntE env (viper.Get st k)).2 = some e →
      ∃ pre post, entries (ValidateLog env c st) = pre ++ e :: post ∧
        entries (ValidateLog env c (viper.Set st k (.int 0))) = pre ++ post) ∧
    (∀ e, (cast.ToStringE (viper.Get st c.LogLevelKey)).2 = some e →
      ∃ pre post,
        entries (ValidateLog env c st) =
          pre ++ [e, .message ((Messages .ErrNotValidLogLevel).Renew [.str ""])] ++ post ∧
        entries (ValidateLog env c (viper.Set st c.LogLevelKey (.str "info"))) =
          pre ++ post) := by
  refine ⟨?_, ?_, ?_⟩
  · intro k hmem e he
    simp only [List.mem_cons, List.mem_singleton, List.not_mem_nil, or_false] at hmem
    rcases hmem with rfl | rfl | rfl
    · exact fileName_coercion env c st e hk he
    · exact level_coercion env c st e hk he
    · exact format_coercion env c st e hk he
  · intro k hmem e he
    simp only [List.mem_cons, List.mem_singleton, List.not_mem_nil, or_false] at hmem
    rcases hmem with rfl | rfl | rfl
    · exact maxSize_coercion env c st e hk he
    · exact maxDays_coercion env c st e hk he
    · exact maxBackups_coercion env c st e hk he
  · intro e he
    have hz : viper.Get (viper.Set st c.LogLevelKey (.str "")) c.LogLevelKey = .str "" :=
      Get_Set_same _ _ _ (by simp)
    have hi : viper.Get (viper.Set st c.LogLevelKey (.str "info")) c.LogLevelKey =
        .str "info" := Get_Set_same _ _ _ (by simp)
    refine ⟨(ValidateLog.fileName env c st ⟨[]⟩).Errors,
      (ValidateLog.format c st ⟨[]⟩).Errors ++ (ValidateLog.maxSize env c st ⟨[]⟩).Errors ++
        (ValidateLog.maxDays env c st ⟨[]⟩).Errors ++
        (ValidateLog.maxBackups env c st ⟨[]⟩).Errors, ?_, ?_⟩
    · rw [ValidateLog_entries, level_fail c st e he, level_of_str c _ "" hz,
        if_neg (by decide)]
      simp only [List.append_assoc, List.cons_append, List.nil_append]
    · rw [ValidateLog_entries, level_of_str c _ "info" hi, if_pos (by decide)]
      rw [fileName_Set_ne env c st _ _ _ (fun h => by simp [h] at hk),
        format_Set_ne c st _ _ _ (fun h => by simp [h] at hk),
        maxSize_Set_ne env c st _ _ _ (fun h => by simp [h] at hk),
        maxDays_Set_ne env c st _ _ _ (fun h => by simp [h] at hk),
        maxBackups_Set_ne env c st _ _ _ (fun h => by simp [h] at hk)]
      simp only [List.append_assoc, List.nil_append]

/-- Witness of C9 on the sample store whose level is uncoercible: the aggregate is
the coercion error followed by the not-valid-log-level message for the empty
string. -/
theorem ValidateLog_coercion_failure_witness :
    entries (ValidateLog unixEnv sampleConstants uncoercibleLevelStore) =
      [.cast (.other 0) "string",
        .message ((Messages .ErrNotValidLogLevel).Renew [.str ""])] ∧
    ∃ pre post,
      entries (ValidateLog unixEnv sampleConstants uncoercibleLevelStore) =
        pre ++ [.cast (.other 0) "string",
          .message ((Messages .ErrNotValidLogLevel).Renew [.str ""])] ++ post ∧
      entries (ValidateLog unixEnv sampleConstants
        (viper.Set uncoercibleLevelStore sampleConstants.LogLevelKey (.str "info"))) =
        pre ++ post :=
  ⟨by decide,
    (ValidateLog_coercion_failure unixEnv sampleConstants uncoercibleLevelStore
      (by decide)).2.2 _ (by decide)⟩

end Config
